import Mathlib

/-!
Verification of the data-prefetching pipeline in
pytorch_lightning/utilities/fetching.py.

The Python classes are shallowly embedded as Lean structures holding the
mutable attributes, and each method becomes a state-passing function.  The
active dataloader iterator is modelled as the list of items it has not yet
produced; a Python StopIteration that escapes to the caller is modelled by
an Option/Except result.
-/

namespace Fetching

/-! ## Synchronous prefetch fetcher (class DataFetcher)

State of a DataFetcher during one iteration pass.  The field names follow
the Python attributes: prefetch_batches, fetched, done, batches.  The field
`source` is the remaining output of self.dataloader_iter. -/
structure DataFetcher (α : Type) where
  prefetch_batches : Nat
  source : List α
  fetched : Nat
  done : Bool
  batches : List α
deriving Repr, DecidableEq

namespace DataFetcher

/-- DataFetcher._fetch_next_batch (fetching.py lines 257-261): pull one item
from the iterator; on success increment self.fetched and run on_fetch_end,
which appends the batch to self.batches (line 231).  A StopIteration from
next(iterator) propagates to the caller, modelled as none. -/
def _fetch_next_batch (s : DataFetcher α) : Option (DataFetcher α) :=
  match s.source with
  | [] => none
  | x :: rest =>
      some { s with source := rest, fetched := s.fetched + 1, batches := s.batches ++ [x] }

/-- Loop body of DataFetcher.prefetching (lines 233-240): up to n pulls,
breaking out of the loop when a pull raises StopIteration (the flag done is
not touched here). -/
def prefetchLoop : Nat → DataFetcher α → DataFetcher α
  | 0, s => s
  | n + 1, s =>
      match _fetch_next_batch s with
      | none => s
      | some s' => prefetchLoop n s'

/-- DataFetcher.prefetching (lines 233-240): pull up to prefetch_batches
items eagerly. -/
def prefetching (s : DataFetcher α) : DataFetcher α :=
  prefetchLoop s.prefetch_batches s

/-- DataFetcher.fetching_function (lines 242-255).  Returns none when the
buffer is empty (raise StopIteration), otherwise pops the oldest buffered
batch, attempts one refill pull unless done (setting done when the pull
raises StopIteration, which is swallowed), runs wait() (a no-op here), and
returns the batch paired with the buffer-now-empty flag.  move_to_device
uses the default _no_op_batch_to_device (line 199-200), the identity. -/
def fetching_function (s : DataFetcher α) : Option ((α × Bool) × DataFetcher α) :=
  match s.batches with
  | [] => none
  | b :: rest =>
      let s1 : DataFetcher α := { s with batches := rest }
      let s2 : DataFetcher α :=
        if s1.done then s1
        else
          match _fetch_next_batch s1 with
          | none => { s1 with done := true }
          | some s' => s'
      some ((b, s2.batches.isEmpty), s2)

/-- AbstractDataFetcher.__iter__ entry for a fresh pass (lines 173-180):
counters reset, a fresh iterator over src obtained, then prefetching runs.
We start from a freshly constructed fetcher with the given depth. -/
def iterDF (D : Nat) (src : List α) : DataFetcher α :=
  prefetching { prefetch_batches := D, source := src, fetched := 0, done := false, batches := [] }

/-- Drive fetching_function to completion with explicit fuel, collecting the
(batch, is_last) outputs in order until StopIteration is raised. -/
def runFuel : Nat → DataFetcher α → List (α × Bool)
  | 0, _ => []
  | n + 1, s =>
      match fetching_function s with
      | none => []
      | some (out, s') => out :: runFuel n s'

/-- Number of successful fetching_function calls is bounded by
source.length + batches.length, which is an exact fuel budget. -/
def runDF (s : DataFetcher α) : List (α × Bool) :=
  runFuel (s.source.length + s.batches.length) s

/-- Apply fetching_function k times; none when StopIteration was raised at
or before the k-th call. -/
def advanceN (s : DataFetcher α) : Nat → Option (DataFetcher α)
  | 0 => some s
  | k + 1 =>
      match fetching_function s with
      | none => none
      | some (_, s') => advanceN s' k

/-- DataFetcher.reset (lines 268-270): zero the counters and empty the batch
buffer; the source iterator is untouched by reset itself. -/
def reset (s : DataFetcher α) : DataFetcher α :=
  { s with fetched := 0, done := false, batches := [] }

end DataFetcher

/-! ## The expected output shape: each source item paired with a flag that
is true exactly on the final item. -/

/-- Pair every element of a list with a flag that is true exactly on the
last element. -/
def markLast : List α → List (α × Bool)
  | [] => []
  | a :: l => (a, l.isEmpty) :: markLast l

/-! ## Overlap fetcher (class InterBatchParallelDataFetcher)

The same engine as DataFetcher with the three hooks overridden.  A cuda
event (TransferHandle) is identified by its creation index; createdEvents
counts the on_fetch_start calls, so it is also the next event's identity. -/
structure InterBatchParallel (α : Type) where
  prefetch_batches : Nat
  source : List α
  fetched : Nat
  done : Bool
  batches : List α
  events : List Nat
  createdEvents : Nat
deriving Repr, DecidableEq

namespace InterBatchParallel

/-- _fetch_next_batch (lines 257-261) with the overlap hooks:
on_fetch_start (lines 302-304) creates a fresh event BEFORE next(iterator)
runs, so the creation count grows even when the pull raises StopIteration;
on success on_fetch_end (lines 306-309) appends the batch to the buffer and
the recorded event to the events FIFO.  The error branch carries the state
left behind by the failed attempt. -/
def _fetch_next_batch (s : InterBatchParallel α) : Except (InterBatchParallel α) (InterBatchParallel α) :=
  let ev := s.createdEvents
  let s0 : InterBatchParallel α := { s with createdEvents := s.createdEvents + 1 }
  match s0.source with
  | [] => .error s0
  | x :: rest =>
      .ok { s0 with
              source := rest
              fetched := s0.fetched + 1
              batches := s0.batches ++ [x]
              events := s0.events ++ [ev] }

/-- DataFetcher.prefetching (lines 233-240), inherited: up to n pulls,
breaking on StopIteration. -/
def prefetchLoop : Nat → InterBatchParallel α → InterBatchParallel α
  | 0, s => s
  | n + 1, s =>
      match _fetch_next_batch s with
      | .error s0 => s0
      | .ok s' => prefetchLoop n s'

def prefetching (s : InterBatchParallel α) : InterBatchParallel α :=
  prefetchLoop s.prefetch_batches s

/-- Result of one inherited fetching_function call (lines 242-255) in
overlap mode: the StopIteration signal to the consumer, an IndexError
from wait() popping an empty events FIFO (line 313), or a batch together
with the is_last flag and the identity of the event the wait() call popped
and blocked on. -/
inductive IBStep (α : Type) where
  | exhausted : IBStep α
  | waitError : InterBatchParallel α → IBStep α
  | ok : (α × Bool) → Nat → InterBatchParallel α → IBStep α
deriving Repr, DecidableEq

/-- fetching_function (lines 242-255) with wait() overridden (lines
311-314): pop the oldest batch, refill unless done, then pop the first
event from the FIFO and wait on it. -/
def fetching_function (s : InterBatchParallel α) : IBStep α :=
  match s.batches with
  | [] => .exhausted
  | b :: rest =>
      let s1 : InterBatchParallel α := { s with batches := rest }
      let s2 : InterBatchParallel α :=
        if s1.done then s1
        else
          match _fetch_next_batch s1 with
          | .error s0 => { s0 with done := true }
          | .ok s' => s'
      match s2.events with
      | [] => .waitError s2
      | e :: es => .ok (b, s2.batches.isEmpty) e { s2 with events := es }

/-- Fresh pass over src for a freshly constructed overlap fetcher (events
FIFO empty, no event created yet, lines 293-296), entering iteration as in
AbstractDataFetcher.__iter__ (lines 173-180). -/
def iterIB (D : Nat) (src : List α) : InterBatchParallel α :=
  prefetching ⟨D, src, 0, false, [], [], 0⟩

/-- Outcome of driving the overlap fetcher to completion: the trace pairs
each (batch, is_last) output with the event identity its wait() popped. -/
inductive RunResult (α : Type) where
  | clean : List ((α × Bool) × Nat) → RunResult α
  | waitCrash : List ((α × Bool) × Nat) → RunResult α
  | outOfFuel : RunResult α
deriving Repr, DecidableEq

def RunResult.trace : RunResult α → List ((α × Bool) × Nat)
  | .clean t => t
  | .waitCrash t => t
  | .outOfFuel => []

def runFuel : Nat → InterBatchParallel α → RunResult α
  | 0, _ => .outOfFuel
  | n + 1, s =>
      match fetching_function s with
      | .exhausted => .clean []
      | .waitError _ => .waitCrash []
      | .ok out e s' =>
          match runFuel n s' with
          | .clean t => .clean ((out, e) :: t)
          | .waitCrash t => .waitCrash ((out, e) :: t)
          | .outOfFuel => .outOfFuel

/-- Drive the overlap fetcher to completion; one unit of fuel per batch
still reachable, plus one call to observe the final StopIteration. -/
def runIB (s : InterBatchParallel α) : RunResult α :=
  runFuel (s.source.length + s.batches.length + 1) s

/-- Apply the overlap fetching_function k times; error true is the consumer
StopIteration, error false the wait() IndexError. -/
def advanceN (s : InterBatchParallel α) : Nat → Except Bool (InterBatchParallel α)
  | 0 => .ok s
  | k + 1 =>
      match fetching_function s with
      | .exhausted => .error true
      | .waitError _ => .error false
      | .ok _ _ s' => advanceN s' k

/-- The inherited DataFetcher.reset (lines 268-270): counters and batch
buffer cleared; the events FIFO is not mentioned there, so it survives. -/
def reset (s : InterBatchParallel α) : InterBatchParallel α :=
  { s with fetched := 0, done := false, batches := [] }

/-- AbstractDataFetcher.__iter__ (lines 173-180) on an existing overlap
fetcher: reset, obtain a fresh iterator over newSrc, then prefetch. -/
def iterAgain (s : InterBatchParallel α) (newSrc : List α) : InterBatchParallel α :=
  prefetching { reset s with source := newSrc }

end InterBatchParallel

/-! ## Caller-driven fetcher (classes StepFuncDataLoaderIter and
DataLoaderIterDataFetcher) -/

structure DataLoaderIterFetcher (α : Type) where
  source : List α
  fetched : Nat
  done : Bool
deriving Repr, DecidableEq

namespace DataLoaderIterFetcher

/-- StepFuncDataLoaderIter.__next__ (lines 326-333): pull one item from the
wrapped iterator; on success increment the fetcher's fetched counter and
return the item; on StopIteration set the fetcher's done flag and re-raise
(the none component). -/
def stepFuncNext (s : DataLoaderIterFetcher α) : Option α × DataLoaderIterFetcher α :=
  match s.source with
  | [] => (none, { s with done := true })
  | x :: rest => (some x, { s with source := rest, fetched := s.fetched + 1 })

/-- DataLoaderIterDataFetcher.fetching_function (lines 364-367): while the
done flag is unset return (fetched, done) together with the wrapping
iterator (which is this very state); once done, raise StopIteration. -/
def fetching_function (s : DataLoaderIterFetcher α) : Option (Nat × Bool) :=
  if s.done then none else some (s.fetched, s.done)

/-- Fresh pass: __init__ (lines 355-357) passes depth 0 to the base class,
__iter__ resets the counters and DataLoaderIterDataFetcher.prefetching
(lines 359-362) merely wraps the iterator without pulling. -/
def iterCD (src : List α) : DataLoaderIterFetcher α :=
  ⟨src, 0, false⟩

/-- State after the consumer pulled n times through the wrapper. -/
def pulls (s : DataLoaderIterFetcher α) : Nat → DataLoaderIterFetcher α
  | 0 => s
  | n + 1 => (stepFuncNext (pulls s n)).2

end DataLoaderIterFetcher

/-! ## Constructor validation (claim about __init__) -/

/-- AbstractDataFetcher.__init__ (lines 70-77): a negative look-ahead depth
raises MisconfigurationException; otherwise the counters start at
fetched 0, done false. -/
def abstractDataFetcherInit (prefetch_batches : Int) : Except String (Int × Nat × Bool) :=
  if prefetch_batches < 0 then
    .error "prefetch_batches should at least be 0."
  else
    .ok (prefetch_batches, 0, false)

/-- DataFetcher.__init__ (lines 214-217): a depth below 1 raises
MisconfigurationException, then the base initializer runs. -/
def dataFetcherInit (prefetch_batches : Int) : Except String (Int × Nat × Bool) :=
  if prefetch_batches < 1 then
    .error "prefetch_batches should at least be 1."
  else
    abstractDataFetcherInit prefetch_batches

/-- InterBatchParallelDataFetcher.__init__ (lines 293-296) forwards its
arguments to DataFetcher.__init__ unchanged. -/
def interBatchParallelInit (prefetch_batches : Int) : Except String (Int × Nat × Bool) :=
  dataFetcherInit prefetch_batches

/-! ## Lifecycle: setup, the dataloader property and teardown -/

/-- The borrowed source collaborator; shutdownResets counts how many times
CombinedLoader._shutdown_workers_and_reset_iterator (or the CombinedLoader
reset) was asked to shut workers down and reset the iteration cursor. -/
structure SourceLoader where
  shutdownResets : Nat
deriving Repr, DecidableEq

/-- Lifecycle view of a fetcher: the bound dataloader (none before setup,
lines 74 and 79-81), whether a dataloader_iter is currently held (line 75
and 177), and the counters and buffer that reset clears. -/
structure FetcherLifecycle where
  prefetch_batches : Nat
  _dataloader : Option SourceLoader
  dataloader_iter_held : Bool
  fetched : Nat
  done : Bool
  batchesCount : Nat
deriving Repr, DecidableEq

/-- AbstractDataFetcher.dataloader property (lines 83-89): raises
MisconfigurationException whenever setup has not yet bound a dataloader. -/
def dataloaderProperty (s : FetcherLifecycle) : Except String SourceLoader :=
  match s._dataloader with
  | none => .error "should have been setup with a dataloader iterable."
  | some dl => .ok dl

/-- AbstractDataFetcher.setup (lines 79-81): bind the dataloader. -/
def setupLifecycle (s : FetcherLifecycle) (dl : SourceLoader) : FetcherLifecycle :=
  { s with _dataloader := some dl }

/-- AbstractDataFetcher.teardown (lines 189-196): run reset (the
DataFetcher override, lines 268-270, also empties the batch buffer), read
the dataloader property to dispatch on the loader kind — which raises
before setup — ask the source to shut its workers down and reset its
iterator, and release dataloader_iter. -/
def teardown (s : FetcherLifecycle) : Except String FetcherLifecycle :=
  let s1 : FetcherLifecycle := { s with fetched := 0, done := false, batchesCount := 0 }
  match dataloaderProperty s1 with
  | .error e => .error e
  | .ok dl =>
      .ok { s1 with
              _dataloader := some { dl with shutdownResets := dl.shutdownResets + 1 }
              dataloader_iter_held := false }

/-! ## Per-source progress capture (_store_dataloader_iter_state)

Source names and progress tokens are Nat; the token of pull j is j.  The
attributes dynamically attached to the dataloader iterator become an
explicit side table. -/

/-- A named progress token (collaborator class IteratorState). -/
structure IterTok where
  name : Nat
  token : Nat
deriving Repr, DecidableEq

/-- The state attributes _store_dataloader_iter_state keeps on the
dataloader iterator (lines 117-121): the per-name token buffers, the
merged state, and the archived previous merged state.  Modelled from the
spec: MergedIteratorState (a collaborator defined in
utilities/auto_restart.py, outside this source file) is an ordered mapping
from source name to its currently applicable token; its update inserts or
replaces the entry for a name, and its length is the number of entries. -/
structure DLIterSide where
  cache_states : List (Nat × List Nat)
  state : List (Nat × Nat)
  previous_state : Option (List (Nat × Nat))
deriving Repr, DecidableEq

/-- Append a token to the buffer of its name, creating the entry at the end
on first sight (Python dict insertion order, lines 125-127). -/
def cacheAppend : List (Nat × List Nat) → Nat → Nat → List (Nat × List Nat)
  | [], n, t => [(n, [t])]
  | (m, ts) :: rest, n, t =>
      if m = n then (m, ts ++ [t]) :: rest
      else (m, ts) :: cacheAppend rest n t

/-- Pop the oldest buffered token of a name (line 134, list.pop(0)); none
models the IndexError or KeyError a missing token would raise. -/
def cachePopOldest : List (Nat × List Nat) → Nat → Option (Nat × List (Nat × List Nat))
  | [], _ => none
  | (m, ts) :: rest, n =>
      if m = n then
        match ts with
        | [] => none
        | t :: ts' => some (t, (m, ts') :: rest)
      else
        match cachePopOldest rest n with
        | none => none
        | some (t, rest') => some (t, (m, ts) :: rest')

/-- Ordered-mapping update of the merged state (line 135).  Modelled from
the spec: fold the popped token into the iterator's MergedState under its
source name. -/
def updateAssoc : List (Nat × Nat) → Nat → Nat → List (Nat × Nat)
  | [], n, t => [(n, t)]
  | (m, u) :: rest, n, t =>
      if m = n then (m, t) :: rest
      else (m, u) :: updateAssoc rest n t

/-- First loop of _store_dataloader_iter_state (lines 123-127): buffer each
incoming token under its name. -/
def bufferAll : List IterTok → DLIterSide → DLIterSide
  | [], it => it
  | st :: rest, it =>
      bufferAll rest { it with cache_states := cacheAppend it.cache_states st.name st.token }

/-- Second loop (lines 130-135): for each incoming token, archive the
previous merged state when it is non-empty, pop the oldest buffered token
of that name and fold it into the merged state. -/
def foldTokens : List IterTok → DLIterSide → Option DLIterSide
  | [], it => some it
  | st :: rest, it =>
      let it1 : DLIterSide :=
        if it.state.length ≠ 0 then { it with previous_state := some it.state } else it
      match cachePopOldest it1.cache_states st.name with
      | none => none
      | some (tok, cache') =>
          foldTokens rest
            { it1 with cache_states := cache', state := updateAssoc it1.state st.name tok }

/-- AbstractDataFetcher._store_dataloader_iter_state (lines 114-135): buffer
every incoming token, then, only once fetched has reached prefetch_batches,
fold one token per incoming token into the merged state. -/
def _store_dataloader_iter_state (fetched prefetch_batches : Nat) (it : DLIterSide)
    (states : List IterTok) : Option DLIterSide :=
  let it1 := bufferAll states it
  if prefetch_batches ≤ fetched then foldTokens states it1 else some it1

/-- Modelled from the spec: the fault-tolerant instrumentation
(patch_dataloader_iterator in utilities/auto_restart.py, outside this
source file) calls _store_dataloader_iter_state once per pull, from inside
next(iterator), with that pull's progress token; since line 260 increments
self.fetched only after next(iterator) returns, the j-th pull stores with
fetched = j - 1.  One source named 0 is driven for F pulls; the token of
pull j is j. -/
def driveStore (D : Nat) : Nat → Option DLIterSide
  | 0 => some ⟨[], [], none⟩
  | j + 1 =>
      match driveStore D j with
      | none => none
      | some it => _store_dataloader_iter_state j D it [⟨0, j + 1⟩]

end Fetching

namespace Fetching

theorem markLast_length (l : List α) : (markLast l).length = l.length := by
  induction l with
  | nil => rfl
  | cons a l ih => simp [markLast, ih]

theorem markLast_map_fst (l : List α) : (markLast l).map Prod.fst = l := by
  induction l with
  | nil => rfl
  | cons a l ih => simp [markLast, ih]

theorem markLast_get_snd (l : List α) (i : Nat) (h : i < (markLast l).length) :
    ((markLast l).get ⟨i, h⟩).snd = decide (i + 1 = l.length) := by
  induction l generalizing i with
  | nil => simp [markLast] at h
  | cons a l ih =>
      cases i with
      | zero =>
          cases l <;> simp [markLast]
      | succ i =>
          have h' : i < (markLast l).length := by
            simpa [markLast] using Nat.lt_of_succ_lt_succ h
          simpa [markLast, List.get] using ih i h'

/-! ## Behaviour of the synchronous prefetch fetcher -/

namespace DataFetcher

theorem prefetchLoop_spec (n : Nat) (D f : Nat) (d : Bool) (b src : List α) :
    prefetchLoop n ⟨D, src, f, d, b⟩ =
      ⟨D, src.drop n, f + min n src.length, d, b ++ src.take n⟩ := by
  induction n generalizing src b f with
  | zero => simp [prefetchLoop]
  | succ n ih =>
      cases src with
      | nil => simp [prefetchLoop, _fetch_next_batch]
      | cons x rest =>
          simp only [prefetchLoop, _fetch_next_batch]
          rw [ih]
          congr 1
          · simp only [List.length_cons]; omega
          · simp

/-- Once done is set, each fetching_function call just drains the buffer. -/
theorem runFuel_done (b : List α) (n : Nat) (D src f) (hn : b.length ≤ n) :
    runFuel n ⟨D, src, f, true, b⟩ = markLast b := by
  induction b generalizing n with
  | nil =>
      cases n <;> simp [runFuel, fetching_function, markLast]
  | cons x rest ih =>
      cases n with
      | zero => simp at hn
      | succ m =>
          have ihm := ih m (by simpa using hn)
          simp [runFuel, fetching_function, ihm, markLast]

/-- While done is unset, driving to completion yields the buffered batches
followed by the rest of the source, each flagged as last exactly at the
end.  The hypothesis rules out the degenerate empty-buffer states the
pipeline never reaches with a positive look-ahead depth. -/
theorem runFuel_not_done (n : Nat) (b src : List α) (D f : Nat)
    (hn : b.length + src.length ≤ n) (hb : b ≠ [] ∨ src = []) :
    runFuel n ⟨D, src, f, false, b⟩ = markLast (b ++ src) := by
  induction n generalizing b src f with
  | zero =>
      have hb0 : b = [] := by
        cases b with
        | nil => rfl
        | cons x t => simp at hn
      have hs0 : src = [] := by
        cases src with
        | nil => rfl
        | cons y t => simp [hb0] at hn
      simp [hb0, hs0, runFuel, markLast]
  | succ m ih =>
      cases b with
      | nil =>
          have hs0 : src = [] := by
            rcases hb with h | h
            · exact absurd rfl h
            · exact h
          simp [hs0, runFuel, fetching_function, markLast]
      | cons x rest =>
          cases src with
          | nil =>
              have hd := runFuel_done rest m D ([] : List α) f (by simpa using hn)
              simp [runFuel, fetching_function, _fetch_next_batch, hd, markLast]
          | cons y src' =>
              have ihx := ih (rest ++ [y]) src' (f + 1)
                (by simp at hn ⊢; omega) (Or.inl (by simp))
              simp [runFuel, fetching_function, _fetch_next_batch, ihx, markLast]
              cases rest <;> simp

/-- After a fresh pass entry with depth D over source src, the buffer holds
take D src and the iterator still owes drop D src. -/
theorem iterDF_eq (D : Nat) (src : List α) :
    iterDF D src = ⟨D, src.drop D, min D src.length, false, src.take D⟩ := by
  simp [iterDF, prefetching, prefetchLoop_spec]

/-- Driving a fresh pass with any depth D at least 1 to completion produces
exactly the source items in order, flagged as last exactly on the final
item. -/
theorem runDF_iterDF (D : Nat) (hD : 1 ≤ D) (src : List α) :
    runDF (iterDF D src) = markLast src := by
  rw [iterDF_eq]
  have h2 : List.take D src ≠ [] ∨ List.drop D src = [] := by
    cases src with
    | nil => right; simp
    | cons x t =>
        left
        cases D with
        | zero => omega
        | succ k => simp
  have key := runFuel_not_done (α := α)
      ((List.drop D src).length + (List.take D src).length)
      (List.take D src) (List.drop D src) D (min D src.length)
      (by omega) h2
  unfold runDF
  rw [key, List.take_append_drop]

/-- Each successful fetching_function call shrinks the combined count of
unpulled source items and buffered batches by exactly one. -/
theorem fetching_function_measure (s : DataFetcher α) (out : α × Bool) (s' : DataFetcher α)
    (h : fetching_function s = some (out, s')) :
    s'.source.length + s'.batches.length + 1 = s.source.length + s.batches.length := by
  cases s with
  | mk D src f d b =>
      cases b with
      | nil => simp [fetching_function] at h
      | cons x rest =>
          cases d with
          | true =>
              simp [fetching_function] at h
              rw [← h.2]
              simp
              omega
          | false =>
              cases src with
              | nil =>
                  simp [fetching_function, _fetch_next_batch] at h
                  rw [← h.2]
                  simp
              | cons y src' =>
                  simp [fetching_function, _fetch_next_batch] at h
                  rw [← h.2]
                  simp
                  omega

theorem advanceN_isSome_iff (k : Nat) (s : DataFetcher α) (n : Nat)
    (hn : s.source.length + s.batches.length ≤ n) :
    (advanceN s k).isSome ↔ k ≤ (runFuel n s).length := by
  induction k generalizing s n with
  | zero => simp [advanceN]
  | succ k ih =>
      cases hf : fetching_function s with
      | none =>
          cases n with
          | zero => simp [advanceN, hf, runFuel]
          | succ m => simp [advanceN, hf, runFuel]
      | some p =>
          obtain ⟨out, s'⟩ := p
          have hm := fetching_function_measure s out s' hf
          cases n with
          | zero => omega
          | succ m =>
              have hn' : s'.source.length + s'.batches.length ≤ m := by omega
              have := ih s' m hn'
              simp [advanceN, hf, runFuel, this]

end DataFetcher

namespace InterBatchParallel

theorem ibPrefetchLoop_spec (n : Nat) (D f c : Nat) (d : Bool) (b src : List α) (E : List Nat) :
    prefetchLoop n ⟨D, src, f, d, b, E, c⟩ =
      ⟨D, src.drop n, f + min n src.length, d, b ++ src.take n,
       E ++ List.range' c (min n src.length),
       c + min n src.length + (if src.length < n then 1 else 0)⟩ := by
  induction n generalizing src b f E c with
  | zero => simp [prefetchLoop]
  | succ n ih =>
      cases src with
      | nil => simp [prefetchLoop, _fetch_next_batch]
      | cons x rest =>
          simp only [prefetchLoop, _fetch_next_batch]
          rw [ih]
          have hmin : min (n + 1) (rest.length + 1) = min n rest.length + 1 := by omega
          congr 1
          · simp only [List.length_cons]
            omega
          · simp
          · simp only [List.length_cons, hmin]
            rw [List.range'_succ c _ 1]
            simp
          · simp only [List.length_cons, hmin]
            by_cases hc : rest.length < n
            · simp [hc, Nat.succ_lt_succ_iff]
              omega
            · simp [hc, Nat.succ_lt_succ_iff]
              omega

/-- Draining phase: with done set, each call pops one batch and one event
in lockstep, so the trace zips the flagged batches with the event FIFO. -/
theorem ibRunFuel_done (b : List α) (E : List Nat) (n : Nat) (D : Nat) (src : List α) (f c : Nat)
    (hE : b.length ≤ E.length) (hn : b.length < n) :
    runFuel n ⟨D, src, f, true, b, E, c⟩ = .clean ((markLast b).zip E) := by
  induction b generalizing E n with
  | nil =>
      cases n with
      | zero => omega
      | succ m => simp [runFuel, fetching_function, markLast]
  | cons x rest ih =>
      cases E with
      | nil => simp at hE
      | cons e E' =>
          cases n with
          | zero => omega
          | succ m =>
              have ihm := ih E' m (by simpa using hE) (by simp at hn; omega)
              simp [runFuel, fetching_function, ihm, markLast]

/-- Active phase: with done unset, the trace pairs the flagged remaining
items (buffer then source) with the current event FIFO extended by the
events the coming refill pulls will create, whose identities continue from
createdEvents. -/
theorem ibRunFuel_not_done (n : Nat) (b src : List α) (E : List Nat) (D f c : Nat)
    (hn : b.length + src.length < n) (hb : b ≠ [] ∨ src = [])
    (hE : E.length = b.length) :
    runFuel n ⟨D, src, f, false, b, E, c⟩ =
      .clean ((markLast (b ++ src)).zip (E ++ List.range' c src.length)) := by
  induction n generalizing b src E f c with
  | zero => omega
  | succ m ih =>
      cases b with
      | nil =>
          have hs0 : src = [] := by
            rcases hb with h | h
            · exact absurd rfl h
            · exact h
          have hE0 : E = [] := List.length_eq_zero.mp (by simp [hE])
          simp [hs0, hE0, runFuel, fetching_function, markLast]
      | cons x rest =>
          cases E with
          | nil => simp at hE
          | cons e E' =>
              cases src with
              | nil =>
                  have hd := ibRunFuel_done rest E' m D ([] : List α) f (c + 1)
                    (le_of_eq (by simpa using hE.symm)) (by simp at hn; omega)
                  simp [runFuel, fetching_function, _fetch_next_batch, hd, markLast]
              | cons y src' =>
                  have ihx := ih (rest ++ [y]) src' (E' ++ [c]) (f + 1) (c + 1)
                    (by simp at hn ⊢; omega) (Or.inl (by simp))
                    (by simp at hE ⊢; omega)
                  simp [runFuel, fetching_function, _fetch_next_batch, ihx, markLast]
                  constructor
                  · cases rest <;> simp
                  · rw [List.range'_succ c _ 1]

/-- A fresh overlap pass in explicit form. -/
theorem iterIB_eq (D : Nat) (src : List α) :
    iterIB D src =
      ⟨D, src.drop D, min D src.length, false, src.take D,
       List.range' 0 (min D src.length),
       min D src.length + if src.length < D then 1 else 0⟩ := by
  simp [iterIB, prefetching, ibPrefetchLoop_spec]

theorem runIB_iterIB (D : Nat) (hD : 1 ≤ D) (src : List α) :
    runIB (iterIB D src) = .clean ((markLast src).zip (List.range src.length)) := by
  rw [iterIB_eq]
  have h2 : List.take D src ≠ [] ∨ List.drop D src = [] := by
    cases src with
    | nil => right; simp
    | cons x t =>
        left
        cases D with
        | zero => omega
        | succ k => simp
  unfold runIB
  rw [ibRunFuel_not_done _ (src.take D) (src.drop D)
      (List.range' 0 (min D src.length)) D (min D src.length)
      (min D src.length + if src.length < D then 1 else 0)
      (by simp only [List.length_take, List.length_drop]; omega) h2
      (by simp)]
  rw [List.take_append_drop]
  have hr : List.range' 0 (min D src.length) ++
      List.range' (min D src.length + if src.length < D then 1 else 0)
        (src.drop D).length = List.range' 0 src.length := by
    by_cases hc : src.length < D
    · have hd0 : (src.drop D).length = 0 := by simp; omega
      rw [hd0]
      simp
      omega
    · have hmin : min D src.length = D := by omega
      have hd0 : (src.drop D).length = src.length - D := by simp
      rw [hd0, hmin]
      simp [hc]
      have h := List.range'_append 0 D (src.length - D) 1
      simp at h
      rw [h]
      congr 1
      omega
  rw [hr, List.range_eq_range']

/-- One inherited fetching_function call in overlap mode never hits the
wait() IndexError while the event FIFO matches the batch buffer in length,
and it re-establishes that length match. -/
theorem fetching_function_preserves (s : InterBatchParallel α)
    (h : s.events.length = s.batches.length) :
    (∀ t, fetching_function s ≠ .waitError t) ∧
    (∀ out e s', fetching_function s = .ok out e s' →
      s'.events.length = s'.batches.length) := by
  cases s with
  | mk D src f d b E c =>
      cases b with
      | nil => simp [fetching_function]
      | cons x rest =>
          cases E with
          | nil => simp at h
          | cons e E' =>
              cases d with
              | true =>
                  constructor
                  · intro t ht
                    simp [fetching_function] at ht
                  · intro out ev s' hs
                    simp [fetching_function] at hs
                    rw [← hs.2.2]
                    simp at h ⊢
                    omega
              | false =>
                  cases src with
                  | nil =>
                      constructor
                      · intro t ht
                        simp [fetching_function, _fetch_next_batch] at ht
                      · intro out ev s' hs
                        simp [fetching_function, _fetch_next_batch] at hs
                        rw [← hs.2.2]
                        simp at h ⊢
                        omega
                  | cons y src' =>
                      constructor
                      · intro t ht
                        simp [fetching_function, _fetch_next_batch] at ht
                      · intro out ev s' hs
                        simp [fetching_function, _fetch_next_batch] at hs
                        rw [← hs.2.2]
                        simp at h ⊢
                        omega

/-- The length match between events and batches is carried through any
number of advances, and the wait() IndexError never occurs. -/
theorem advanceN_preserves (n : Nat) (s : InterBatchParallel α)
    (h : s.events.length = s.batches.length) :
    advanceN s n ≠ .error false ∧
    (∀ s', advanceN s n = .ok s' → s'.events.length = s'.batches.length) := by
  induction n generalizing s with
  | zero =>
      constructor
      · simp [advanceN]
      · intro s' hs
        simp [advanceN] at hs
        rw [← hs]
        exact h
  | succ k ih =>
      cases hf : fetching_function s with
      | exhausted => simp [advanceN, hf]
      | waitError t => exact absurd hf ((fetching_function_preserves s h).1 t)
      | ok out e s' =>
          have h' := (fetching_function_preserves s h).2 out e s' hf
          have := ih s' h'
          constructor
          · simpa [advanceN, hf] using this.1
          · intro s'' hs
            exact this.2 s'' (by simpa [advanceN, hf] using hs)

/-- A fresh overlap pass starts with as many queued events as buffered
batches. -/
theorem iterIB_events_batches (D : Nat) (src : List α) :
    (iterIB D src).events.length = (iterIB D src).batches.length := by
  rw [iterIB_eq]
  simp

end InterBatchParallel

/-! ## Claim theorems for the synchronous prefetch fetcher -/

/-- Claim C1: for every look-ahead depth D at least 1 and every finite
source src, driving DataFetcher to completion produces exactly src.length
(batch, is_last) pairs before the StopIteration signal, the batches are the
source items in order, and is_last is true on exactly the final pair and
false on all earlier pairs. -/
theorem dataFetcher_run_yields_all_batches_last_flag_exact
    (α : Type) (D : Nat) (hD : 1 ≤ D) (src : List α) :
    (DataFetcher.runDF (DataFetcher.iterDF D src)).length = src.length ∧
    (DataFetcher.runDF (DataFetcher.iterDF D src)).map Prod.fst = src ∧
    ∀ i (h : i < (DataFetcher.runDF (DataFetcher.iterDF D src)).length),
      ((DataFetcher.runDF (DataFetcher.iterDF D src)).get ⟨i, h⟩).snd =
        decide (i + 1 = src.length) := by
  have h := DataFetcher.runDF_iterDF D hD src
  refine ⟨by rw [h, markLast_length], by rw [h, markLast_map_fst], ?_⟩
  intro i hi
  rw [List.get_of_eq h ⟨i, hi⟩]
  exact markLast_get_snd src i _

theorem dataFetcher_run_yields_all_batches_last_flag_exact_witness :
    1 ≤ 2 ∧
    ((DataFetcher.runDF (DataFetcher.iterDF 2 [5, 6, 7])).length = [5, 6, 7].length ∧
     (DataFetcher.runDF (DataFetcher.iterDF 2 [5, 6, 7])).map Prod.fst = [5, 6, 7] ∧
     ∀ i (h : i < (DataFetcher.runDF (DataFetcher.iterDF 2 [5, 6, 7])).length),
       ((DataFetcher.runDF (DataFetcher.iterDF 2 [5, 6, 7])).get ⟨i, h⟩).snd =
         decide (i + 1 = [5, 6, 7].length)) :=
  ⟨by decide, dataFetcher_run_yields_all_batches_last_flag_exact Nat 2 (by decide) [5, 6, 7]⟩

/-- Claim C4: the externally visible (batch, is_last) sequence is identical
for any two look-ahead depths at least 1; in particular a three-element
source [a, b, c] yields (a, false), (b, false), (c, true) and then the
StopIteration signal, for every such depth. -/
theorem dataFetcher_output_invariant_to_depth
    (α : Type) (D1 D2 : Nat) (h1 : 1 ≤ D1) (h2 : 1 ≤ D2) (src : List α) :
    DataFetcher.runDF (DataFetcher.iterDF D1 src) =
      DataFetcher.runDF (DataFetcher.iterDF D2 src) ∧
    ∀ a b c : α,
      DataFetcher.runDF (DataFetcher.iterDF D1 [a, b, c]) =
        [(a, false), (b, false), (c, true)] := by
  constructor
  · rw [DataFetcher.runDF_iterDF D1 h1, DataFetcher.runDF_iterDF D2 h2]
  · intro a b c
    rw [DataFetcher.runDF_iterDF D1 h1]
    simp [markLast]

theorem dataFetcher_output_invariant_to_depth_witness :
    (1 ≤ 1 ∧ 1 ≤ 2) ∧
    (DataFetcher.runDF (DataFetcher.iterDF 1 [10, 20, 30]) =
       DataFetcher.runDF (DataFetcher.iterDF 2 [10, 20, 30]) ∧
     ∀ a b c : Nat,
       DataFetcher.runDF (DataFetcher.iterDF 1 [a, b, c]) =
         [(a, false), (b, false), (c, true)]) :=
  ⟨⟨by decide, by decide⟩,
   dataFetcher_output_invariant_to_depth Nat 1 2 (by decide) (by decide) [10, 20, 30]⟩

/-- Claim C5: with any depth at least 1, the k-fold iterate of
fetching_function on a fresh pass succeeds exactly for k up to the source
length: the StopIteration signal is first raised on call src.length + 1,
never before the true end (refill exhaustion is swallowed into the done
flag, not propagated), and always eventually; in the caller-driven fetcher,
fetching_function raises exactly when the done flag is set. -/
theorem dataFetcher_exhausts_exactly_after_source
    (α : Type) (D : Nat) (hD : 1 ≤ D) (src : List α) :
    (∀ k : Nat,
      (DataFetcher.advanceN (DataFetcher.iterDF D src) k).isSome ↔ k ≤ src.length) ∧
    ∀ s : DataLoaderIterFetcher α,
      DataLoaderIterFetcher.fetching_function s = none ↔ s.done = true := by
  constructor
  · intro k
    have h := DataFetcher.advanceN_isSome_iff k (DataFetcher.iterDF D src)
      ((DataFetcher.iterDF D src).source.length + (DataFetcher.iterDF D src).batches.length)
      le_rfl
    have hlen :
        (DataFetcher.runFuel
          ((DataFetcher.iterDF D src).source.length + (DataFetcher.iterDF D src).batches.length)
          (DataFetcher.iterDF D src)).length = src.length := by
      show (DataFetcher.runDF (DataFetcher.iterDF D src)).length = src.length
      rw [DataFetcher.runDF_iterDF D hD src, markLast_length]
    rw [h, hlen]
  · intro s
    cases s with
    | mk src f d =>
        cases d <;> simp [DataLoaderIterFetcher.fetching_function]

theorem dataFetcher_exhausts_exactly_after_source_witness :
    1 ≤ 1 ∧
    ((∀ k : Nat,
       (DataFetcher.advanceN (DataFetcher.iterDF 1 [4, 5]) k).isSome ↔ k ≤ [4, 5].length) ∧
     ∀ s : DataLoaderIterFetcher Nat,
       DataLoaderIterFetcher.fetching_function s = none ↔ s.done = true) :=
  ⟨by decide, dataFetcher_exhausts_exactly_after_source Nat 1 (by decide) [4, 5]⟩

/-! ## Claim theorems for the overlap fetcher -/

/-- Claim C3: in overlap mode, driving N fetches of a finite source to
completion calls wait() exactly N times, and the i-th wait() pops and
blocks on exactly the handle created by the i-th on_fetch_start call:
the trace zips the flagged batches with the event identities 0, 1, 2, ...
in creation order, matching the batch buffer's pop order. -/
theorem interBatchParallel_wait_fifo
    (α : Type) (D : Nat) (hD : 1 ≤ D) (src : List α) :
    InterBatchParallel.runIB (InterBatchParallel.iterIB D src) =
      .clean ((markLast src).zip (List.range src.length)) ∧
    (InterBatchParallel.runIB (InterBatchParallel.iterIB D src)).trace.map Prod.snd =
      List.range src.length ∧
    (InterBatchParallel.runIB (InterBatchParallel.iterIB D src)).trace.length =
      src.length := by
  have h := InterBatchParallel.runIB_iterIB D hD src
  refine ⟨h, ?_, ?_⟩
  · rw [h]
    show ((markLast src).zip (List.range src.length)).map Prod.snd = _
    exact List.map_snd_zip _ _ (by simp [markLast_length])
  · rw [h]
    show ((markLast src).zip (List.range src.length)).length = _
    simp [markLast_length]

theorem interBatchParallel_wait_fifo_witness :
    1 ≤ 2 ∧
    (InterBatchParallel.runIB (InterBatchParallel.iterIB 2 [7, 8, 9]) =
       .clean ((markLast [7, 8, 9]).zip (List.range [7, 8, 9].length)) ∧
     (InterBatchParallel.runIB (InterBatchParallel.iterIB 2 [7, 8, 9])).trace.map Prod.snd =
       List.range [7, 8, 9].length ∧
     (InterBatchParallel.runIB (InterBatchParallel.iterIB 2 [7, 8, 9])).trace.length =
       [7, 8, 9].length) :=
  ⟨by decide, interBatchParallel_wait_fifo Nat 2 (by decide) [7, 8, 9]⟩

/-- Claim C9: DataFetcher.reset zeroes fetched, clears done and empties the
batch buffer; the overlap fetcher inherits it unchanged, so the events
FIFO survives reset — and entering a new pass stacks the newly created
handles after any stale unconsumed ones. -/
theorem reset_clears_buffer_but_overlap_keeps_events
    (α : Type) (s : DataFetcher α) (t : InterBatchParallel α) (newSrc : List α) :
    DataFetcher.reset s = ⟨s.prefetch_batches, s.source, 0, false, []⟩ ∧
    InterBatchParallel.reset t =
      ⟨t.prefetch_batches, t.source, 0, false, [], t.events, t.createdEvents⟩ ∧
    (InterBatchParallel.iterAgain t newSrc).events =
      t.events ++ List.range' t.createdEvents (min t.prefetch_batches newSrc.length) := by
  refine ⟨rfl, rfl, ?_⟩
  cases t with
  | mk D src f d b E c =>
      simp [InterBatchParallel.iterAgain, InterBatchParallel.reset,
        InterBatchParallel.prefetching, InterBatchParallel.ibPrefetchLoop_spec]

/-- Claim C10: from a freshly constructed overlap fetcher, after
prefetching and after any number of advances within the pass, the event
FIFO is exactly as long as the batch buffer, and the wait() IndexError
(popping an empty FIFO while batches remain) never occurs. -/
theorem interBatchParallel_events_match_batches
    (α : Type) (D : Nat) (hD : 1 ≤ D) (src : List α) (n : Nat) :
    (∀ s', InterBatchParallel.advanceN (InterBatchParallel.iterIB D src) n = .ok s' →
      s'.events.length = s'.batches.length) ∧
    InterBatchParallel.advanceN (InterBatchParallel.iterIB D src) n ≠ .error false := by
  have h := InterBatchParallel.advanceN_preserves n (InterBatchParallel.iterIB D src)
    (InterBatchParallel.iterIB_events_batches D src)
  exact ⟨h.2, h.1⟩

theorem interBatchParallel_events_match_batches_witness :
    1 ≤ 1 ∧
    ((∀ s', InterBatchParallel.advanceN (InterBatchParallel.iterIB 1 [4, 5]) 1 = .ok s' →
       s'.events.length = s'.batches.length) ∧
     InterBatchParallel.advanceN (InterBatchParallel.iterIB 1 [4, 5]) 1 ≠ .error false) :=
  ⟨by decide, interBatchParallel_events_match_batches Nat 1 (by decide) [4, 5] 1⟩

end Fetching

namespace Fetching

/-! ## Caller-driven mode -/

namespace DataLoaderIterFetcher

theorem pulls_spec (src : List α) (k : Nat) (hk : k ≤ src.length) :
    pulls (iterCD src) k = ⟨src.drop k, k, false⟩ := by
  induction k with
  | zero => simp [pulls, iterCD]
  | succ k ih =>
      have hk' : k ≤ src.length := by omega
      have hlt : k < src.length := by omega
      simp only [pulls]
      rw [ih hk']
      rw [show src.drop k = src[k] :: src.drop (k + 1) from List.drop_eq_getElem_cons hlt]
      simp [stepFuncNext]

end DataLoaderIterFetcher

/-- Claim C6: in caller-driven mode over a source of length L, after any
k of at most L pulls the wrapper has incremented fetched to exactly k with
done still false and fetching_function returns (fetched, false); each of
the L successful pulls yields the source items in order; the pull after
the last returns nothing, sets done, and re-raises; once done is set the
next fetching_function call raises StopIteration. -/
theorem dataLoaderIter_caller_driven_protocol (α : Type) (src : List α) :
    (∀ k, k ≤ src.length →
      DataLoaderIterFetcher.pulls (DataLoaderIterFetcher.iterCD src) k =
        ⟨src.drop k, k, false⟩ ∧
      DataLoaderIterFetcher.fetching_function
        (DataLoaderIterFetcher.pulls (DataLoaderIterFetcher.iterCD src) k) =
          some (k, false)) ∧
    (∀ k (h : k < src.length),
      (DataLoaderIterFetcher.stepFuncNext
        (DataLoaderIterFetcher.pulls (DataLoaderIterFetcher.iterCD src) k)).1 =
        some (src.get ⟨k, h⟩)) ∧
    (DataLoaderIterFetcher.stepFuncNext
      (DataLoaderIterFetcher.pulls (DataLoaderIterFetcher.iterCD src) src.length)).1 =
      none ∧
    (DataLoaderIterFetcher.stepFuncNext
      (DataLoaderIterFetcher.pulls (DataLoaderIterFetcher.iterCD src) src.length)).2 =
      ⟨[], src.length, true⟩ ∧
    DataLoaderIterFetcher.fetching_function
      (DataLoaderIterFetcher.stepFuncNext
        (DataLoaderIterFetcher.pulls (DataLoaderIterFetcher.iterCD src) src.length)).2 =
      none := by
  have hL := DataLoaderIterFetcher.pulls_spec src src.length le_rfl
  refine ⟨?_, ?_, ?_, ?_, ?_⟩
  · intro k hk
    have h := DataLoaderIterFetcher.pulls_spec src k hk
    rw [h]
    exact ⟨rfl, by simp [DataLoaderIterFetcher.fetching_function]⟩
  · intro k h
    have hp := DataLoaderIterFetcher.pulls_spec src k (le_of_lt h)
    rw [hp]
    rw [show src.drop k = src[k] :: src.drop (k + 1) from List.drop_eq_getElem_cons h]
    simp [DataLoaderIterFetcher.stepFuncNext]
  · rw [hL]
    simp [DataLoaderIterFetcher.stepFuncNext]
  · rw [hL]
    simp [DataLoaderIterFetcher.stepFuncNext]
  · rw [hL]
    simp [DataLoaderIterFetcher.stepFuncNext, DataLoaderIterFetcher.fetching_function]

theorem dataLoaderIter_caller_driven_protocol_witness :
    (∀ k, k ≤ ([3, 4] : List Nat).length →
      DataLoaderIterFetcher.pulls (DataLoaderIterFetcher.iterCD [3, 4]) k =
        ⟨([3, 4] : List Nat).drop k, k, false⟩ ∧
      DataLoaderIterFetcher.fetching_function
        (DataLoaderIterFetcher.pulls (DataLoaderIterFetcher.iterCD [3, 4]) k) =
          some (k, false)) ∧
    (∀ k (h : k < ([3, 4] : List Nat).length),
      (DataLoaderIterFetcher.stepFuncNext
        (DataLoaderIterFetcher.pulls (DataLoaderIterFetcher.iterCD [3, 4]) k)).1 =
        some (([3, 4] : List Nat).get ⟨k, h⟩)) ∧
    (DataLoaderIterFetcher.stepFuncNext
      (DataLoaderIterFetcher.pulls (DataLoaderIterFetcher.iterCD [3, 4])
        ([3, 4] : List Nat).length)).1 = none ∧
    (DataLoaderIterFetcher.stepFuncNext
      (DataLoaderIterFetcher.pulls (DataLoaderIterFetcher.iterCD [3, 4])
        ([3, 4] : List Nat).length)).2 = ⟨[], ([3, 4] : List Nat).length, true⟩ ∧
    DataLoaderIterFetcher.fetching_function
      (DataLoaderIterFetcher.stepFuncNext
        (DataLoaderIterFetcher.pulls (DataLoaderIterFetcher.iterCD [3, 4])
          ([3, 4] : List Nat).length)).2 = none :=
  dataLoaderIter_caller_driven_protocol Nat [3, 4]

/-! ## Constructor validation and lifecycle claims -/

/-- Claim C7: constructing the base fetcher with a negative look-ahead
depth, or the synchronous-prefetch/overlap fetchers with a depth below 1,
raises MisconfigurationException; every depth meeting the respective lower
bound constructs successfully. -/
theorem init_depth_validation (p : Int) :
    ((abstractDataFetcherInit p).isOk = true ↔ 0 ≤ p) ∧
    ((dataFetcherInit p).isOk = true ↔ 1 ≤ p) ∧
    ((interBatchParallelInit p).isOk = true ↔ 1 ≤ p) := by
  have hA : (abstractDataFetcherInit p).isOk = true ↔ 0 ≤ p := by
    unfold abstractDataFetcherInit
    by_cases h : p < 0
    · simp only [if_pos h, Except.isOk]
      constructor
      · intro hc
        exact absurd hc (by decide)
      · intro hc
        omega
    · simp only [if_neg h, Except.isOk]
      constructor
      · intro _
        omega
      · intro _
        rfl
  have hB : (dataFetcherInit p).isOk = true ↔ 1 ≤ p := by
    unfold dataFetcherInit abstractDataFetcherInit
    by_cases h : p < 1
    · simp only [if_pos h, Except.isOk]
      constructor
      · intro hc
        exact absurd hc (by decide)
      · intro hc
        omega
    · have h0 : ¬(p < 0) := by omega
      simp only [if_neg h, if_neg h0, Except.isOk]
      constructor
      · intro _
        omega
      · intro _
        rfl
  refine ⟨hA, hB, ?_⟩
  unfold interBatchParallelInit
  exact hB

/-- Claim C8 counterexample: teardown is not safe before setup — on a
freshly constructed fetcher the dataloader property access inside teardown
(line 191) raises MisconfigurationException (lines 85-88). -/
theorem teardown_before_setup_raises :
    teardown ⟨1, none, false, 0, false, 0⟩ =
      .error "should have been setup with a dataloader iterable." := rfl

/-- Claim C8 (amended): at any point after setup — between passes or
mid-buffer with nonzero counters — teardown succeeds without error: it
zeroes the counters, empties the buffer, releases the iterator and asks
the source collaborator to shut its workers down and reset its cursor. -/
theorem teardown_safe_after_setup (s : FetcherLifecycle) (dl : SourceLoader)
    (h : s._dataloader = some dl) :
    teardown s =
      .ok ⟨s.prefetch_batches, some ⟨dl.shutdownResets + 1⟩, false, 0, false, 0⟩ := by
  cases s with
  | mk p d held f dn bc =>
      cases d with
      | none => simp at h
      | some dl' =>
          simp at h
          subst h
          rfl

theorem teardown_safe_after_setup_witness :
    (⟨2, some ⟨0⟩, true, 3, true, 2⟩ : FetcherLifecycle)._dataloader = some ⟨0⟩ ∧
    teardown ⟨2, some ⟨0⟩, true, 3, true, 2⟩ =
      .ok ⟨2, some ⟨0 + 1⟩, false, 0, false, 0⟩ :=
  ⟨rfl, teardown_safe_after_setup ⟨2, some ⟨0⟩, true, 3, true, 2⟩ ⟨0⟩ rfl⟩

/-! ## Progress-token merging -/

theorem range'_snoc (s n : Nat) : List.range' s (n + 1) = List.range' s n ++ [s + n] := by
  simpa using @List.range'_concat 1 s n

/-- One more pull on the characterized side-table state: pull F + 1 stores
its token with fetched = F and moves the characterization from F to F + 1
pulls. -/
theorem store_step (D F : Nat) :
    _store_dataloader_iter_state F D
      ⟨if F = 0 then [] else [(0, List.range' (F - D + 1) (min F D))],
       if F ≤ D then [] else [(0, F - D)],
       if F ≤ D + 1 then none else some [(0, F - D - 1)]⟩
      [⟨0, F + 1⟩] =
    some
      ⟨[(0, List.range' (F + 1 - D + 1) (min (F + 1) D))],
       if F + 1 ≤ D then [] else [(0, F + 1 - D)],
       if F + 1 ≤ D + 1 then none else some [(0, F + 1 - D - 1)]⟩ := by
  by_cases hF0 : F = 0
  · subst hF0
    by_cases hD0 : D = 0
    · subst hD0
      decide
    · have h1 : ¬(D ≤ 0) := by omega
      have h2 : (1 : Nat) ≤ D := by omega
      have h3 : (1 : Nat) ≤ D + 1 := by omega
      have h4 : min 1 D = 1 := by omega
      simp [_store_dataloader_iter_state, bufferAll, cacheAppend, h1, h2, h3, h4,
        List.range'_one]
  · by_cases hDF : D ≤ F
    · by_cases hFD : F ≤ D
      · -- F = D: the first fold; nothing to archive yet
        have hFDeq : F = D := by omega
        subst hFDeq
        have hm1 : min F F = F := by omega
        have hm2 : min (F + 1) F = F := by omega
        have hs1 : F - F = 0 := by omega
        have hcat : List.range' 1 F ++ [F + 1] = List.range' 1 (F + 1) := by
          rw [range'_snoc]
          simp [Nat.add_comm]
        have hcons : List.range' 1 (F + 1) = 1 :: List.range' 2 F := List.range'_succ 1 F 1
        have hle : F ≤ F + 1 := by omega
        have hnle : ¬(F + 1 ≤ F) := by omega
        simp [_store_dataloader_iter_state, bufferAll, cacheAppend, foldTokens,
          cachePopOldest, updateAssoc, hm1, hm2, hs1, hF0, hcat, hcons, hle, hnle]
      · -- D < F: steady state; archive the previous merged state
        have hm1 : min F D = D := by omega
        have hm2 : min (F + 1) D = D := by omega
        have hx : F - D + 1 + D = F + 1 := by omega
        have hcat : List.range' (F - D + 1) D ++ [F + 1] =
            List.range' (F - D + 1) (D + 1) := by
          rw [range'_snoc, hx]
        have hcons : List.range' (F - D + 1) (D + 1) =
            (F - D + 1) :: List.range' (F - D + 2) D := by
          have := List.range'_succ (F - D + 1) D 1
          simpa using this
        have h5 : ¬(F ≤ D) := by omega
        have h6 : ¬(F + 1 ≤ D) := by omega
        have h7 : ¬(F + 1 ≤ D + 1) := by omega
        have h8 : F + 1 - D + 1 = F - D + 2 := by omega
        have h9 : F + 1 - D = F - D + 1 := by omega
        by_cases h10 : F ≤ D + 1
        · -- exactly the second fold: the archived state appears now
          have hFeq : F = D + 1 := by omega
          subst hFeq
          have e1 : D + 1 - D + 1 = 2 := by omega
          have e2 : min (D + 1) D = D := by omega
          have e3 : D + 1 - D = 1 := by omega
          have e4 : D + 1 + 1 - D + 1 = 3 := by omega
          have e5 : min (D + 1 + 1) D = D := by omega
          have e6 : D + 1 + 1 - D = 2 := by omega
          have e7 : D + 1 + 1 - D - 1 = 1 := by omega
          have hcat2 : List.range' 2 D ++ [D + 1 + 1] = List.range' 2 (D + 1) := by
            rw [range'_snoc, show 2 + D = D + 1 + 1 from by omega]
          have hcons2 : List.range' 2 (D + 1) = 2 :: List.range' 3 D := by
            simpa using List.range'_succ 2 D 1
          simp [_store_dataloader_iter_state, bufferAll, cacheAppend, foldTokens,
            cachePopOldest, updateAssoc, e1, e2, e3, e4, e5, e6, e7, hcat2, hcons2,
            h5, h6, h7, hDF]
        · have h11 : F + 1 - D - 1 = F - D := by omega
          simp [_store_dataloader_iter_state, bufferAll, cacheAppend, foldTokens,
            cachePopOldest, updateAssoc, hm1, hm2, hF0, h5, h6, h7, h10, hcat,
            hcons, h8, h9, h11, hDF]
    · -- F < D: the token is only buffered, nothing folds yet
      have h1 : F ≤ D := by omega
      have h2 : F + 1 ≤ D := by omega
      have h3 : F ≤ D + 1 := by omega
      have h4 : F + 1 ≤ D + 1 := by omega
      have hm1 : min F D = F := by omega
      have hm2 : min (F + 1) D = F + 1 := by omega
      have hs1 : F - D = 0 := by omega
      have hs2 : F + 1 - D = 0 := by omega
      have hcat : List.range' 1 F ++ [F + 1] = List.range' 1 (F + 1) := by
        rw [range'_snoc]
        simp [Nat.add_comm]
      simp [_store_dataloader_iter_state, bufferAll, cacheAppend, hDF, h1, h2, h3, h4,
        hm1, hm2, hs1, hs2, hcat, hF0]

/-- Full characterization of the side table after F pulls with depth D:
the merged state trails the fetch count by exactly D pulls, the buffer
holds the not-yet-folded tokens, and the archive holds the merged state
as it was before the last fold. -/
theorem driveStore_spec (D F : Nat) :
    driveStore D F =
      some ⟨if F = 0 then [] else [(0, List.range' (F - D + 1) (min F D))],
            if F ≤ D then [] else [(0, F - D)],
            if F ≤ D + 1 then none else some [(0, F - D - 1)]⟩ := by
  induction F with
  | zero => simp [driveStore]
  | succ F ih =>
      simp only [driveStore, ih]
      rw [store_step D F]
      simp

/-- Claim C2 (amended): each incoming token is buffered under its source
name, and one token per name is folded into the merged state only once
FetchCount has reached LookAheadDepth, the previous non-empty merged state
being archived first; the externally visible merged state after F pulls
reflects source progress as of pull max(0, F - D) — the visibility lag is
relative to the fetch count, so after the consumer has consumed K batches
(F = K + D pulls with a full look-ahead buffer) the merged state reflects
exactly batch K. -/
theorem store_progress_lags_fetch_count (D F : Nat) :
    (driveStore D F).map DLIterSide.state =
      some (if F ≤ D then [] else [(0, F - D)]) ∧
    (driveStore D F).map DLIterSide.cache_states =
      some (if F = 0 then [] else [(0, List.range' (F - D + 1) (min F D))]) ∧
    (driveStore D F).map DLIterSide.previous_state =
      some (if F ≤ D + 1 then none else some [(0, F - D - 1)]) := by
  rw [driveStore_spec D F]
  exact ⟨rfl, rfl, rfl⟩

/-- Claim C2 counterexample: with depth D = 1 over the source [10, 20, 30],
after the consumer has consumed exactly K = 1 batch the fetcher has pulled
twice (fetched = 2), and the merged state then holds the token of pull 1 —
progress as of batch K itself — whereas max(0, K - D) = 0 would require
the merged state to be still empty; so with D > 0 the merged state does
reflect batch K, refuting the claimed visibility lag relative to
consumption. -/
theorem store_progress_reflects_consumed_batch :
    (DataFetcher.advanceN (DataFetcher.iterDF 1 [10, 20, 30]) 1).map DataFetcher.fetched =
      some 2 ∧
    (driveStore 1 2).map DLIterSide.state = some [(0, 1)] ∧
    some ([(0, 1)] : List (Nat × Nat)) ≠ some [] := by decide

end Fetching
